import Mathlib

/-!
Shallow embedding of the XRP trading-signal monitor (`signals2.py`).

Prices are modelled as exact rationals.  The pandas/NumPy float
computations that can produce IEEE special values (division by zero in
the RSI ratio, `pct_change` on a series shorter than its period) are
modelled by the `PyFloat` type, which carries an exact rational or one
of the special values `inf`, `-inf`, `nan`, with the IEEE result of
each operation spelled out case by case.
-/

namespace Signals

attribute [local semireducible] Rat.mul Rat.add Rat.sub Rat.inv

/-- Value of a Python/pandas float computation: an exact rational or an
IEEE special value. -/
inductive PyFloat where
  | num : ℚ → PyFloat
  | inf : PyFloat
  | ninf : PyFloat
  | nan : PyFloat
deriving DecidableEq

namespace PyFloat

/-- IEEE addition on `PyFloat` values. -/
def add : PyFloat → PyFloat → PyFloat
  | num a, num b => num (a + b)
  | num _, inf => inf
  | num _, ninf => ninf
  | inf, num _ => inf
  | ninf, num _ => ninf
  | inf, inf => inf
  | ninf, ninf => ninf
  | inf, ninf => nan
  | ninf, inf => nan
  | nan, _ => nan
  | _, nan => nan

/-- IEEE subtraction on `PyFloat` values. -/
def sub : PyFloat → PyFloat → PyFloat
  | num a, num b => num (a - b)
  | num _, inf => ninf
  | num _, ninf => inf
  | inf, num _ => inf
  | ninf, num _ => ninf
  | inf, ninf => inf
  | ninf, inf => ninf
  | inf, inf => nan
  | ninf, ninf => nan
  | nan, _ => nan
  | _, nan => nan

/-- IEEE multiplication on `PyFloat` values. -/
def mul : PyFloat → PyFloat → PyFloat
  | num a, num b => num (a * b)
  | num a, inf => if 0 < a then inf else if a < 0 then ninf else nan
  | num a, ninf => if 0 < a then ninf else if a < 0 then inf else nan
  | inf, num b => if 0 < b then inf else if b < 0 then ninf else nan
  | ninf, num b => if 0 < b then ninf else if b < 0 then inf else nan
  | inf, inf => inf
  | ninf, ninf => inf
  | inf, ninf => ninf
  | ninf, inf => ninf
  | nan, _ => nan
  | _, nan => nan

/-- IEEE division on `PyFloat` values (NumPy semantics: a nonzero float
divided by zero gives a signed infinity, `0/0` gives `nan`). -/
def div : PyFloat → PyFloat → PyFloat
  | num a, num b =>
      if b = 0 then (if 0 < a then inf else if a < 0 then ninf else nan)
      else num (a / b)
  | num _, inf => num 0
  | num _, ninf => num 0
  | inf, num b => if 0 ≤ b then inf else ninf
  | ninf, num b => if 0 ≤ b then ninf else inf
  | inf, inf => nan
  | inf, ninf => nan
  | ninf, inf => nan
  | ninf, ninf => nan
  | nan, _ => nan
  | _, nan => nan

/-- Python comparison `v > q` against a rational threshold; every
comparison against `nan` is false. -/
def gtQ : PyFloat → ℚ → Bool
  | num a, q => decide (q < a)
  | inf, _ => true
  | ninf, _ => false
  | nan, _ => false

/-- Python comparison `v < q` against a rational threshold; every
comparison against `nan` is false. -/
def ltQ : PyFloat → ℚ → Bool
  | num a, q => decide (a < q)
  | inf, _ => false
  | ninf, _ => true
  | nan, _ => false

/-- Python comparison `a > b` between two float values; comparisons
involving `nan` are false. -/
def gtF : PyFloat → PyFloat → Bool
  | nan, _ => false
  | _, nan => false
  | num a, num b => decide (b < a)
  | num _, inf => false
  | num _, ninf => true
  | inf, num _ => true
  | inf, inf => false
  | inf, ninf => true
  | ninf, num _ => false
  | ninf, inf => false
  | ninf, ninf => false

/-- Python comparison `a < b`, defined by flipping `gtF`. -/
def ltF (a b : PyFloat) : Bool := gtF b a

end PyFloat

/-- Nearest integer to a rational, ties going to the even integer; this
is the rounding Python's fixed-point string formatting performs. -/
def roundHalfEven (q : ℚ) : ℤ :=
  let f := q.floor
  if q - (f : ℚ) < 1 / 2 then f
  else if 1 / 2 < q - (f : ℚ) then f + 1
  else if f % 2 = 0 then f else f + 1

/-- Decimal digits of a natural number below 100, left-padded with a zero. -/
def pad2 (n : ℕ) : String :=
  if n < 10 then "0" ++ toString n else toString n

/-- Python's `f-string` formatting with spec `.2f`: the value rounded to
two decimal places, half to even. -/
def fmt2 (q : ℚ) : String :=
  let n := (roundHalfEven (q * 100)).natAbs
  (if q < 0 then "-" else "") ++ toString (n / 100) ++ "." ++ pad2 (n % 100)

/-- Python's `.2f` formatting lifted to `PyFloat` values. -/
def fmt2f : PyFloat → String
  | .num q => fmt2 q
  | .inf => "inf"
  | .ninf => "-inf"
  | .nan => "nan"

/-- Last `n` elements of a list (the `iloc[-1]` window of a length-`n`
rolling computation, and of pandas `rolling(n)` tail sums). -/
def lastN (n : ℕ) (l : List ℚ) : List ℚ := l.drop (l.length - n)

/-- Positive parts of the successive differences of the price series:
pandas `delta.where(delta > 0, 0)` without the leading `diff` entry
(the leading `NaN`, which `where` also replaces by `0`, is added back by
`avgGain14`). -/
def pairGains (prices : List ℚ) : List ℚ :=
  List.zipWith (fun a b => max (b - a) 0) prices prices.tail

/-- Negative parts of the successive differences, negated:
pandas `-delta.where(delta < 0, 0)` without the leading entry. -/
def pairLosses (prices : List ℚ) : List ℚ :=
  List.zipWith (fun a b => max (a - b) 0) prices prices.tail

/-- Last value of `gain.rolling(window=14).mean()`: the mean of the last
14 entries of the gain series, whose first entry is the `0` that `where`
substituted for the `NaN` produced by `diff()`. -/
def avgGain14 (prices : List ℚ) : ℚ :=
  (lastN 14 ((0 : ℚ) :: pairGains prices)).sum / 14

/-- Last value of `(-delta.where(delta < 0, 0)).rolling(window=14).mean()`. -/
def avgLoss14 (prices : List ℚ) : ℚ :=
  (lastN 14 ((0 : ℚ) :: pairLosses prices)).sum / 14

/-- The RSI arithmetic `100 - (100 / (1 + rs))` with `rs = gain / loss`,
carried out in float semantics so that a zero `avgLoss` produces the
IEEE result (`rs = inf` hence RSI `= 100` when `avgGain > 0`, `nan`
when both averages are zero). -/
def rsiFromAvgs (avgGain avgLoss : ℚ) : PyFloat :=
  PyFloat.sub (.num 100)
    (PyFloat.div (.num 100)
      (PyFloat.add (.num 1) (PyFloat.div (.num avgGain) (.num avgLoss))))

/-- Last value of the RSI series computed by the source. -/
def rsiLast (prices : List ℚ) : PyFloat :=
  rsiFromAvgs (avgGain14 prices) (avgLoss14 prices)

/-- Last value of `df.rolling(window=n).mean()`: the arithmetic mean of
the final `n` prices, the divisor being the window size. -/
def smaLast (window : ℕ) (prices : List ℚ) : ℚ :=
  (lastN window prices).sum / (window : ℚ)

/-- Last value of `df.pct_change(periods=10) * 100`.  The shift leaves
the last entry defined only when at least 11 samples exist; with 10 or
fewer samples the shifted series is all `NaN` and so is the result. -/
def momentumLast (prices : List ℚ) : PyFloat :=
  if 11 ≤ prices.length then
    PyFloat.mul
      (PyFloat.sub
        (PyFloat.div (.num (prices.getD (prices.length - 1) 0))
          (.num (prices.getD (prices.length - 11) 0)))
        (.num 1))
      (.num 100)
  else .nan

/-- The indicator snapshot returned by `calculate_available_indicators`:
four independently optional fields, `none` meaning the sample-count
guard in the source rejected the computation. -/
structure Indicators where
  SMA20 : Option PyFloat
  SMA50 : Option PyFloat
  RSI : Option PyFloat
  momentum : Option PyFloat
deriving DecidableEq

/-- Embedding of `calculate_available_indicators` (signals2.py lines
34-62): each indicator is computed only when its sample-count guard
holds. -/
def calculate_available_indicators (prices : List ℚ) : Indicators where
  SMA20 := if 20 ≤ prices.length then some (.num (smaLast 20 prices)) else none
  SMA50 := if 50 ≤ prices.length then some (.num (smaLast 50 prices)) else none
  RSI := if 14 ≤ prices.length then some (rsiLast prices) else none
  momentum := if 10 ≤ prices.length then some (momentumLast prices) else none

/-- The price-movement conditional of `generate_basic_signal` (lines
71-78), acting on the running (signal, reasons) state. -/
def priceDeltaRule (current_price prev : ℚ) (st : String × List String) :
    String × List String :=
  let price_change_pct := (current_price - prev) / prev * 100
  if price_change_pct ≥ 2 then
    ("BUY", st.2 ++ ["Price up " ++ fmt2 price_change_pct ++ "%"])
  else if price_change_pct ≤ -2 then
    ("SELL", st.2 ++ ["Price down " ++ fmt2 price_change_pct ++ "%"])
  else st

/-- The RSI conditional of `generate_basic_signal` (lines 81-87). -/
def rsiRule (rsi : Option PyFloat) (st : String × List String) :
    String × List String :=
  match rsi with
  | none => st
  | some v =>
      if v.gtQ 70 then ("SELL", st.2 ++ ["RSI overbought: " ++ fmt2f v])
      else if v.ltQ 30 then ("BUY", st.2 ++ ["RSI oversold: " ++ fmt2f v])
      else st

/-- The momentum conditional of `generate_basic_signal` (lines 90-96). -/
def momentumRule (m : Option PyFloat) (st : String × List String) :
    String × List String :=
  match m with
  | none => st
  | some v =>
      if v.gtQ 5 then
        ("BUY", st.2 ++ ["Strong positive momentum: " ++ fmt2f v ++ "%"])
      else if v.ltQ (-5) then
        ("SELL", st.2 ++ ["Strong negative momentum: " ++ fmt2f v ++ "%"])
      else st

/-- The moving-average crossover conditional of `generate_basic_signal`
(lines 99-105), applicable only when both SMAs are present. -/
def smaCrossRule (sma20 sma50 : Option PyFloat) (st : String × List String) :
    String × List String :=
  match sma20, sma50 with
  | some a, some b =>
      if a.gtF b then ("BUY", st.2 ++ ["SMA20 above SMA50"])
      else if a.ltF b then ("SELL", st.2 ++ ["SMA20 below SMA50"])
      else st
  | _, _ => st

/-- Line 107 of the source: join the accumulated reasons with " & ", or
fall back to the fixed placeholder when no rule fired. -/
def finishSignal (st : String × List String) : String × String :=
  (st.1, if st.2 = [] then "Initial price logging" else String.intercalate " & " st.2)

/-- Embedding of `generate_basic_signal` (lines 65-107).  The signal
starts as HOLD with no reasons and the four rules update the state in
source order.  A previous price of exactly `0` makes the Python
percentage computation raise `ZeroDivisionError`, modelled as `none`
(that value is unreachable in the monitor, whose truthiness guard never
stores `0` as previous price). -/
def generate_basic_signal (current_price : ℚ) (prev_price : Option ℚ)
    (indicators : Indicators) : Option (String × String) :=
  match prev_price with
  | some prev =>
      if prev = 0 then none
      else
        some (finishSignal
          (smaCrossRule indicators.SMA20 indicators.SMA50
            (momentumRule indicators.momentum
              (rsiRule indicators.RSI
                (priceDeltaRule current_price prev ("HOLD", []))))))
  | none =>
      some (finishSignal
        (smaCrossRule indicators.SMA20 indicators.SMA50
          (momentumRule indicators.momentum
            (rsiRule indicators.RSI ("HOLD", [])))))

/-- One append to the bounded price history (lines 138-142): push the
new price and, if the length now exceeds 100, pop the head. -/
def stepBuffer (prices : List ℚ) (p : ℚ) : List ℚ :=
  let appended := prices ++ [p]
  if 100 < appended.length then appended.tail else appended

/-- The price history obtained by feeding a whole sequence of fetched
prices through `stepBuffer`, starting from the empty history. -/
def priceBuffer (ps : List ℚ) : List ℚ := ps.foldl stepBuffer []

/-- The persistable row assembled each successful tick (lines 151-160,
minus the wall-clock timestamp, which is external). -/
structure SignalRecord where
  price : ℚ
  signal : String
  reason : String
  rsi : Option PyFloat
  sma20 : Option PyFloat
  sma50 : Option PyFloat
  momentum : Option PyFloat
deriving DecidableEq

/-- The mutable state of the monitoring loop: the bounded history and
the previous successfully processed price. -/
structure MonState where
  prices : List ℚ
  prev_price : Option ℚ
deriving DecidableEq

/-- One iteration of the `monitor_xrp_trading` loop body (lines
133-190), as a function of the fetch outcome: `none` models a failed
`get_xrp_price`.  Python's truthiness test `if current_price:` also
rejects a fetched price of exactly `0`.  A `ZeroDivisionError` inside
`generate_basic_signal` would be caught by the loop's `except` after the
buffer was already mutated but before the record is logged and the
previous price updated. -/
def tick (st : MonState) (fetched : Option ℚ) : MonState × Option SignalRecord :=
  match fetched with
  | none => (st, none)
  | some current_price =>
      if current_price = 0 then (st, none)
      else
        let prices := stepBuffer st.prices current_price
        let indicators := calculate_available_indicators prices
        match generate_basic_signal current_price st.prev_price indicators with
        | none => ({ prices := prices, prev_price := st.prev_price }, none)
        | some sr =>
            ({ prices := prices, prev_price := some current_price },
             some { price := current_price, signal := sr.1, reason := sr.2,
                    rsi := indicators.RSI, sma20 := indicators.SMA20,
                    sma50 := indicators.SMA50, momentum := indicators.momentum })

/-- Run the monitoring loop over a list of fetch outcomes, collecting
the produced records in order. -/
def runTicks (st : MonState) (fs : List (Option ℚ)) : MonState × List SignalRecord :=
  match fs with
  | [] => (st, [])
  | f :: rest =>
      let out := tick st f
      let final := runTicks out.1 rest
      (final.1, out.2.toList ++ final.2)

/-! Spec-side definitions, used to state the refinement claims.  Each
rule is recast, following the spec's words, as an outcome pair
`(optional signal override, optional reason)`, and the classifier as a
left-to-right fold keeping the last override and accumulating all
reasons. -/

/-- Spec reading of the price-delta rule as an outcome pair. -/
def priceOutcome (current : ℚ) (prev : Option ℚ) : Option String × Option String :=
  match prev with
  | none => (none, none)
  | some pv =>
      let pct := (current - pv) / pv * 100
      if pct ≥ 2 then (some "BUY", some ("Price up " ++ fmt2 pct ++ "%"))
      else if pct ≤ -2 then (some "SELL", some ("Price down " ++ fmt2 pct ++ "%"))
      else (none, none)

/-- Spec reading of the RSI rule as an outcome pair. -/
def rsiOutcome : Option PyFloat → Option String × Option String
  | none => (none, none)
  | some v =>
      if v.gtQ 70 then (some "SELL", some ("RSI overbought: " ++ fmt2f v))
      else if v.ltQ 30 then (some "BUY", some ("RSI oversold: " ++ fmt2f v))
      else (none, none)

/-- Spec reading of the momentum rule as an outcome pair. -/
def momentumOutcome : Option PyFloat → Option String × Option String
  | none => (none, none)
  | some v =>
      if v.gtQ 5 then
        (some "BUY", some ("Strong positive momentum: " ++ fmt2f v ++ "%"))
      else if v.ltQ (-5) then
        (some "SELL", some ("Strong negative momentum: " ++ fmt2f v ++ "%"))
      else (none, none)

/-- Spec reading of the SMA-crossover rule as an outcome pair. -/
def smaOutcome : Option PyFloat → Option PyFloat → Option String × Option String
  | some a, some b =>
      if a.gtF b then (some "BUY", some "SMA20 above SMA50")
      else if a.ltF b then (some "SELL", some "SMA20 below SMA50")
      else (none, none)
  | _, _ => (none, none)

/-- The four rule outcomes in the fixed evaluation order of the spec:
price-delta, RSI, momentum, SMA-crossover. -/
def ruleOutcomes (current : ℚ) (prev : Option ℚ) (ind : Indicators) :
    List (Option String × Option String) :=
  [priceOutcome current prev, rsiOutcome ind.RSI,
   momentumOutcome ind.momentum, smaOutcome ind.SMA20 ind.SMA50]

/-- The classifier as the spec describes it: the signal is the last
rule's override (HOLD if none fired) and the reason joins every
matching rule's reason string in rule order. -/
def specClassify (current : ℚ) (prev : Option ℚ) (ind : Indicators) : String × String :=
  finishSignal
    (((ruleOutcomes current prev ind).filterMap Prod.fst).getLast?.getD "HOLD",
     (ruleOutcomes current prev ind).filterMap Prod.snd)

/-- Applying a single rule outcome to the running (signal, reasons)
state: the override, when present, replaces the signal; the reason,
when present, is appended. -/
def applyOutcome (o : Option String × Option String) (st : String × List String) :
    String × List String :=
  (o.1.getD st.1, st.2 ++ o.2.toList)

/-- Arithmetic mean of a list, the divisor being the number of elements
present (the spec's "arithmetic mean of the last n prices"). -/
def mean (l : List ℚ) : ℚ := l.sum / (l.length : ℚ)

/-- The RSI computation as the spec words it: gain/loss per successive
pair of prices, avgGain and avgLoss the arithmetic means of the last 14
gain/loss values, RS = avgGain / avgLoss, RSI = 100 - 100/(1+RS),
absent below 14 samples. -/
def rsiSpecFormula (prices : List ℚ) : Option PyFloat :=
  if 14 ≤ prices.length then
    some (rsiFromAvgs (mean (lastN 14 (pairGains prices)))
                      (mean (lastN 14 (pairLosses prices))))
  else none

/-- Whether an optional indicator value is a well-defined real number
lying in the closed interval [0, 100]. -/
def isRealIn0100 : Option PyFloat → Bool
  | some (.num q) => decide (0 ≤ q ∧ q ≤ 100)
  | _ => false

/-- Whether an optional indicator value is a well-defined real number
(as opposed to absent or an IEEE special value). -/
def isRealNum : Option PyFloat → Bool
  | some (.num _) => true
  | _ => false

/-! Buffer lemmas. -/

theorem stepBuffer_small (l : List ℚ) (p : ℚ) (h : l.length < 100) :
    stepBuffer l p = l ++ [p] := by
  simp only [stepBuffer]
  rw [if_neg]
  simp only [List.length_append, List.length_cons, List.length_nil]
  omega

theorem stepBuffer_full (l : List ℚ) (p : ℚ) (h : 100 ≤ l.length) :
    stepBuffer l p = l.tail ++ [p] := by
  simp only [stepBuffer]
  rw [if_pos]
  · cases l with
    | nil => simp at h
    | cons a t => simp
  · simp only [List.length_append, List.length_cons, List.length_nil]
    omega

theorem priceBuffer_eq (ps : List ℚ) :
    priceBuffer ps = ps.drop (ps.length - 100) := by
  induction ps using List.reverseRecOn with
  | nil => rfl
  | append_singleton xs x ih =>
      rw [priceBuffer, List.foldl_append]
      simp only [List.foldl_cons, List.foldl_nil]
      rw [← priceBuffer, ih]
      by_cases h : xs.length < 100
      · rw [show xs.length - 100 = 0 by omega, List.drop_zero, stepBuffer_small xs x h]
        rw [show (xs ++ [x]).length - 100 = 0 by
          simp only [List.length_append, List.length_cons, List.length_nil]; omega]
        rw [List.drop_zero]
      · push_neg at h
        have hlen : (xs.drop (xs.length - 100)).length = 100 := by
          rw [List.length_drop]; omega
        rw [stepBuffer_full _ x (le_of_eq hlen.symm), List.tail_drop]
        have h1 : (xs ++ [x]).length - 100 = xs.length - 100 + 1 := by
          simp only [List.length_append, List.length_cons, List.length_nil]; omega
        rw [h1, List.drop_append_of_le_length (by omega)]

/-- Claim C2: the price-history buffer never exceeds 100 elements; a
single append drops exactly the head element once at capacity; and the
buffer resulting from any sequence of appends is exactly the final
100-element (or shorter) suffix of the appended sequence, in order — so
eviction is strict FIFO, oldest first, one eviction per append. -/
theorem price_history_bounded_fifo (ps l : List ℚ) (p : ℚ) :
    (priceBuffer ps).length ≤ 100
    ∧ priceBuffer ps = ps.drop (ps.length - 100)
    ∧ stepBuffer l p = if l.length < 100 then l ++ [p] else l.tail ++ [p] := by
  refine ⟨?_, priceBuffer_eq ps, ?_⟩
  · rw [priceBuffer_eq, List.length_drop]; omega
  · by_cases h : l.length < 100
    · rw [if_pos h, stepBuffer_small l p h]
    · rw [if_neg h, stepBuffer_full l p (by omega)]

/-- Claim C9: a failed price fetch leaves the monitoring state — the
price-history buffer and the stored previous price — unchanged,
produces no signal record, and the run over the remaining ticks
proceeds exactly as if the failed tick had never been scheduled. -/
theorem fetch_failure_skips_tick (st : MonState) (fs : List (Option ℚ)) :
    tick st none = (st, none)
    ∧ (tick st none).1.prices = st.prices
    ∧ (tick st none).1.prev_price = st.prev_price
    ∧ runTicks st (none :: fs) = runTicks st fs := by
  refine ⟨rfl, rfl, rfl, ?_⟩
  simp [runTicks, tick]

/-- Claim C10: a fetched price of exactly 0 fails Python's truthiness
test and is treated identically to a fetch failure — nothing is
appended, no record is produced, the previous price is unchanged —
although the buffer itself happily appends a zero price (it always ends
up as the most recent element). -/
theorem zero_price_treated_as_failure (st : MonState) (l : List ℚ) :
    tick st (some 0) = (st, none)
    ∧ tick st (some 0) = tick st none
    ∧ (stepBuffer l 0).getLast? = some 0 := by
  refine ⟨by simp [tick], by simp [tick], ?_⟩
  by_cases h : l.length < 100
  · rw [stepBuffer_small l 0 h, List.getLast?_concat]
  · rw [stepBuffer_full l 0 (by omega), List.getLast?_concat]

/-! Classifier lemmas: each source conditional equals the application of
its spec-side outcome pair, and a chain of outcome applications is a
fold keeping the last override and accumulating all reasons. -/

theorem priceDeltaRule_eq_applyOutcome (c pv : ℚ) (st : String × List String) :
    priceDeltaRule c pv st = applyOutcome (priceOutcome c (some pv)) st := by
  simp only [priceDeltaRule, priceOutcome]
  split_ifs <;> simp [applyOutcome]

theorem rsiRule_eq_applyOutcome (r : Option PyFloat) (st : String × List String) :
    rsiRule r st = applyOutcome (rsiOutcome r) st := by
  cases r with
  | none => simp [rsiRule, rsiOutcome, applyOutcome]
  | some v =>
      simp only [rsiRule, rsiOutcome]
      split_ifs <;> simp [applyOutcome]

theorem momentumRule_eq_applyOutcome (m : Option PyFloat) (st : String × List String) :
    momentumRule m st = applyOutcome (momentumOutcome m) st := by
  cases m with
  | none => simp [momentumRule, momentumOutcome, applyOutcome]
  | some v =>
      simp only [momentumRule, momentumOutcome]
      split_ifs <;> simp [applyOutcome]

theorem smaCrossRule_eq_applyOutcome (a b : Option PyFloat) (st : String × List String) :
    smaCrossRule a b st = applyOutcome (smaOutcome a b) st := by
  cases a with
  | none => cases b <;> simp [smaCrossRule, smaOutcome, applyOutcome]
  | some x =>
      cases b with
      | none => simp [smaCrossRule, smaOutcome, applyOutcome]
      | some y =>
          simp only [smaCrossRule, smaOutcome]
          split_ifs <;> simp [applyOutcome]

theorem getLast?_getD_cons (m : List String) (s d : String) :
    ((s :: m).getLast?).getD d = (m.getLast?).getD s := by
  cases m with
  | nil => rfl
  | cons a t =>
      rw [List.getLast?_cons_cons, List.getLast?_eq_getLast (a :: t) (by simp)]
      rfl

theorem applyOutcome_foldl (l : List (Option String × Option String))
    (st : String × List String) :
    l.foldl (fun s o => applyOutcome o s) st
      = ((l.filterMap Prod.fst).getLast?.getD st.1, st.2 ++ l.filterMap Prod.snd) := by
  induction l generalizing st with
  | nil => simp
  | cons o t ih =>
      obtain ⟨o1, o2⟩ := o
      rw [List.foldl_cons, ih]
      cases o1 <;> cases o2 <;>
        simp [applyOutcome, getLast?_getD_cons, List.filterMap_cons]

/-- Claim C1: the classifier evaluates the four rules in the fixed order
price-delta, RSI, momentum, SMA-crossover; the returned signal is the
override of the last matching rule (each match overwrites any earlier
signal) and the returned reason joins every matching rule's reason
string in rule order with " & ".  Stated as a refinement: the source
classifier equals the spec-side fold over the ordered rule outcomes.
The hypothesis excludes a stored previous price of exactly 0, which
would raise `ZeroDivisionError` in Python and is unreachable in the
monitor. -/
theorem classify_sequential_overwrite (current : ℚ) (prev : Option ℚ)
    (ind : Indicators) (hprev : prev ≠ some 0) :
    generate_basic_signal current prev ind = some (specClassify current prev ind) := by
  have chain : ∀ st : String × List String,
      smaCrossRule ind.SMA20 ind.SMA50 (momentumRule ind.momentum (rsiRule ind.RSI st))
        = applyOutcome (smaOutcome ind.SMA20 ind.SMA50)
            (applyOutcome (momentumOutcome ind.momentum)
              (applyOutcome (rsiOutcome ind.RSI) st)) := by
    intro st
    rw [rsiRule_eq_applyOutcome, momentumRule_eq_applyOutcome, smaCrossRule_eq_applyOutcome]
  have fold4 : ∀ o1 o2 o3 o4 : Option String × Option String,
      applyOutcome o4 (applyOutcome o3 (applyOutcome o2
          (applyOutcome o1 ("HOLD", ([] : List String)))))
        = (([o1, o2, o3, o4].filterMap Prod.fst).getLast?.getD "HOLD",
           [o1, o2, o3, o4].filterMap Prod.snd) := by
    intro o1 o2 o3 o4
    have h := applyOutcome_foldl [o1, o2, o3, o4] ("HOLD", [])
    simpa using h
  cases prev with
  | none =>
      have h0 : ("HOLD", ([] : List String))
          = applyOutcome (priceOutcome current none) ("HOLD", []) := rfl
      simp only [generate_basic_signal, chain]
      rw [h0, fold4]
      rfl
  | some pv =>
      have hpv : pv ≠ 0 := by intro h; exact hprev (by rw [h])
      simp only [generate_basic_signal, if_neg hpv, chain]
      rw [priceDeltaRule_eq_applyOutcome, fold4]
      rfl

/-- Witness for C1: with RSI = 75, momentum = +6, SMA20 < SMA50 and no
price-delta trigger (no previous price), the refinement applies and the
spec-side fold evaluates to signal SELL with the three reasons joined
in rule order. -/
theorem classify_sequential_overwrite_witness :
    generate_basic_signal 100 none
        ⟨some (.num 1), some (.num 2), some (.num 75), some (.num 6)⟩
      = some (specClassify 100 none
          ⟨some (.num 1), some (.num 2), some (.num 75), some (.num 6)⟩)
    ∧ specClassify 100 none
        ⟨some (.num 1), some (.num 2), some (.num 75), some (.num 6)⟩
      = ("SELL",
         "RSI overbought: 75.00 & Strong positive momentum: 6.00% & SMA20 below SMA50") :=
  ⟨classify_sequential_overwrite 100 none _ (by simp), by decide⟩

/-- Claim C7: with a previous price present, the price-delta rule sets
BUY and appends "Price up X.XX%" when the percentage change is at least
+2, sets SELL and appends "Price down X.XX%" when it is at most -2, and
otherwise leaves the (signal, reasons) state untouched; in particular
previous = 100, current = 103 with an all-absent snapshot classifies as
BUY with reason "Price up 3.00%". -/
theorem price_delta_rule_spec (current pv : ℚ) (st : String × List String)
    (_hpv : pv ≠ 0) :
    ((current - pv) / pv * 100 ≥ 2 →
       priceDeltaRule current pv st
         = ("BUY", st.2 ++ ["Price up " ++ fmt2 ((current - pv) / pv * 100) ++ "%"]))
    ∧ ((current - pv) / pv * 100 ≤ -2 →
       priceDeltaRule current pv st
         = ("SELL", st.2 ++ ["Price down " ++ fmt2 ((current - pv) / pv * 100) ++ "%"]))
    ∧ (-2 < (current - pv) / pv * 100 → (current - pv) / pv * 100 < 2 →
       priceDeltaRule current pv st = st)
    ∧ generate_basic_signal 103 (some 100) ⟨none, none, none, none⟩
      = some ("BUY", "Price up 3.00%") := by
  refine ⟨?_, ?_, ?_, by decide⟩
  · intro h
    simp only [priceDeltaRule]
    rw [if_pos h]
  · intro h
    simp only [priceDeltaRule]
    rw [if_neg (by linarith), if_pos h]
  · intro h1 h2
    simp only [priceDeltaRule]
    rw [if_neg (by linarith), if_neg (by linarith)]

/-- Witness for C7: the BUY branch of the price-delta rule at
previous = 100, current = 103, where the change is exactly +3%. -/
theorem price_delta_rule_spec_witness :
    (103 - 100 : ℚ) / 100 * 100 ≥ 2
    ∧ priceDeltaRule 103 100 ("HOLD", [])
      = ("BUY", [] ++ ["Price up " ++ fmt2 ((103 - 100 : ℚ) / 100 * 100) ++ "%"])
    ∧ fmt2 ((103 - 100 : ℚ) / 100 * 100) = "3.00" :=
  ⟨by norm_num,
   (price_delta_rule_spec 103 100 ("HOLD", []) (by norm_num)).1 (by norm_num),
   by decide⟩

/-- Claim C8: when no rule fires — previous price absent or strictly
inside the ±2% band, every indicator absent or failing its comparison
thresholds — the classifier returns HOLD with the exact reason string
"Initial price logging". -/
theorem no_rule_gives_hold (current : ℚ) (prev : Option ℚ) (ind : Indicators)
    (hp : ∀ pv, prev = some pv →
        pv ≠ 0 ∧ -2 < (current - pv) / pv * 100 ∧ (current - pv) / pv * 100 < 2)
    (hr : ∀ v, ind.RSI = some v → v.gtQ 70 = false ∧ v.ltQ 30 = false)
    (hm : ∀ v, ind.momentum = some v → v.gtQ 5 = false ∧ v.ltQ (-5) = false)
    (hs : ∀ a b, ind.SMA20 = some a → ind.SMA50 = some b →
        a.gtF b = false ∧ a.ltF b = false) :
    generate_basic_signal current prev ind = some ("HOLD", "Initial price logging") := by
  obtain ⟨s20, s50, r, m⟩ := ind
  have hrsi : ∀ st : String × List String, rsiRule r st = st := by
    intro st
    cases r with
    | none => rfl
    | some v =>
        obtain ⟨h1, h2⟩ := hr v rfl
        simp [rsiRule, h1, h2]
  have hmom : ∀ st : String × List String, momentumRule m st = st := by
    intro st
    cases m with
    | none => rfl
    | some v =>
        obtain ⟨h1, h2⟩ := hm v rfl
        simp [momentumRule, h1, h2]
  have hsma : ∀ st : String × List String, smaCrossRule s20 s50 st = st := by
    intro st
    cases s20 with
    | none => cases s50 <;> rfl
    | some a =>
        cases s50 with
        | none => rfl
        | some b =>
            obtain ⟨h1, h2⟩ := hs a b rfl rfl
            simp [smaCrossRule, h1, h2]
  cases prev with
  | none =>
      simp only [generate_basic_signal, hrsi, hmom, hsma]
      rfl
  | some pv =>
      obtain ⟨h0, hl, hh⟩ := hp pv rfl
      have hpd : priceDeltaRule current pv ("HOLD", []) = ("HOLD", []) := by
        simp only [priceDeltaRule]
        rw [if_neg (by linarith), if_neg (by linarith)]
      simp only [generate_basic_signal, if_neg h0, hpd, hrsi, hmom, hsma]
      rfl

/-- Witness for C8: a first tick — no previous price, every indicator
absent — yields HOLD with the placeholder reason. -/
theorem no_rule_gives_hold_witness :
    generate_basic_signal 42 none ⟨none, none, none, none⟩
      = some ("HOLD", "Initial price logging") :=
  no_rule_gives_hold 42 none ⟨none, none, none, none⟩
    (fun _ h => Option.noConfusion h)
    (fun _ h => Option.noConfusion h)
    (fun _ h => Option.noConfusion h)
    (fun _ _ ha _ => Option.noConfusion ha)

/-! Indicator lemmas. -/

theorem lastN_length (n : ℕ) (l : List ℚ) (h : n ≤ l.length) :
    (lastN n l).length = n := by
  rw [lastN, List.length_drop]; omega

theorem drop_replicate (k n : ℕ) (c : ℚ) :
    (List.replicate n c).drop k = List.replicate (n - k) c := by
  induction k generalizing n with
  | zero => simp
  | succ k ih =>
      cases n with
      | zero => simp
      | succ n => rw [List.replicate_succ, List.drop_succ_cons, ih, Nat.succ_sub_succ]

/-- Claim C6: SMA20 (resp. SMA50) is absent exactly when fewer than 20
(resp. 50) samples exist; when available it is the exact arithmetic
mean of the last 20 (resp. 50) prices; and on a constant price sequence
it equals that constant. -/
theorem sma_exact_mean (prices : List ℚ) (c : ℚ) (n : ℕ) :
    ((calculate_available_indicators prices).SMA20 = none ↔ prices.length < 20)
    ∧ ((calculate_available_indicators prices).SMA50 = none ↔ prices.length < 50)
    ∧ (20 ≤ prices.length →
        (calculate_available_indicators prices).SMA20
          = some (.num (mean (lastN 20 prices))))
    ∧ (50 ≤ prices.length →
        (calculate_available_indicators prices).SMA50
          = some (.num (mean (lastN 50 prices))))
    ∧ (20 ≤ n →
        (calculate_available_indicators (List.replicate n c)).SMA20 = some (.num c))
    ∧ (50 ≤ n →
        (calculate_available_indicators (List.replicate n c)).SMA50 = some (.num c)) := by
  have hmean : ∀ (w : ℕ) (l : List ℚ), w ≤ l.length → smaLast w l = mean (lastN w l) := by
    intro w l h
    rw [smaLast, mean, lastN_length w l h]
  have hconst : ∀ w : ℕ, 0 < w → w ≤ n → smaLast w (List.replicate n c) = c := by
    intro w hw h
    rw [smaLast, lastN, List.length_replicate, drop_replicate, List.sum_replicate,
      nsmul_eq_mul, show n - (n - w) = w by omega]
    exact mul_div_cancel_left₀ c (by exact_mod_cast hw.ne')
  refine ⟨?_, ?_, ?_, ?_, ?_, ?_⟩
  · simp only [calculate_available_indicators]
    split_ifs with h <;> simp <;> omega
  · simp only [calculate_available_indicators]
    split_ifs with h <;> simp <;> omega
  · intro h
    simp only [calculate_available_indicators]
    rw [if_pos h, hmean 20 prices h]
  · intro h
    simp only [calculate_available_indicators]
    rw [if_pos h, hmean 50 prices h]
  · intro h
    simp only [calculate_available_indicators]
    rw [if_pos (by rw [List.length_replicate]; omega), hconst 20 (by norm_num) h]
  · intro h
    simp only [calculate_available_indicators]
    rw [if_pos (by rw [List.length_replicate]; omega), hconst 50 (by norm_num) h]

/-- Witness for C6: on twenty constant samples of value 3 the SMA20 is
available, equals the mean of the final window, and that mean is 3. -/
theorem sma_exact_mean_witness :
    (calculate_available_indicators (List.replicate 20 (3:ℚ))).SMA20
      = some (.num (mean (lastN 20 (List.replicate 20 (3:ℚ)))))
    ∧ mean (lastN 20 (List.replicate 20 (3:ℚ))) = 3 :=
  ⟨(sma_exact_mean (List.replicate 20 3) 3 20).2.2.1 (by simp), by decide⟩

theorem pairGains_length (prices : List ℚ) :
    (pairGains prices).length = prices.length - 1 := by
  rw [pairGains, List.length_zipWith, List.length_tail]; omega

theorem pairLosses_length (prices : List ℚ) :
    (pairLosses prices).length = prices.length - 1 := by
  rw [pairLosses, List.length_zipWith, List.length_tail]; omega

/-- Rescaling invariance of the RSI arithmetic: dividing both rolling
sums by one positive constant or another gives the same RSI, because
the ratio RS cancels the common divisor (in every branch of the float
division, including the zero-denominator ones). -/
theorem rsiFromAvgs_rescale (g l a b : ℚ) (ha : 0 < a) (hb : 0 < b) :
    rsiFromAvgs (g / a) (l / a) = rsiFromAvgs (g / b) (l / b) := by
  unfold rsiFromAvgs
  rcases eq_or_ne l 0 with hl | hl
  · subst hl
    simp only [zero_div]
    have congrDiv : PyFloat.div (.num (g / a)) (.num 0)
        = PyFloat.div (.num (g / b)) (.num 0) := by
      have dneg : ∀ x : ℚ, x < 0 → PyFloat.div (.num x) (.num 0) = .ninf := by
        intro x hx
        simp only [PyFloat.div, eq_self_iff_true, if_true]
        rw [if_neg (asymm hx), if_pos hx]
      have dpos : ∀ x : ℚ, 0 < x → PyFloat.div (.num x) (.num 0) = .inf := by
        intro x hx
        simp only [PyFloat.div, eq_self_iff_true, if_true]
        rw [if_pos hx]
      rcases lt_trichotomy g 0 with hg | hg | hg
      · rw [dneg _ (div_neg_of_neg_of_pos hg ha), dneg _ (div_neg_of_neg_of_pos hg hb)]
      · subst hg
        simp only [zero_div]
      · rw [dpos _ (div_pos hg ha), dpos _ (div_pos hg hb)]
    rw [congrDiv]
  · have ha' : l / a ≠ 0 := div_ne_zero hl (ne_of_gt ha)
    have hb' : l / b ≠ 0 := div_ne_zero hl (ne_of_gt hb)
    have key : g / a / (l / a) = g / b / (l / b) := by
      field_simp
    have e1 : PyFloat.div (.num (g / a)) (.num (l / a)) = .num (g / a / (l / a)) := by
      simp only [PyFloat.div]
      rw [if_neg ha']
    have e2 : PyFloat.div (.num (g / b)) (.num (l / b)) = .num (g / b / (l / b)) := by
      simp only [PyFloat.div]
      rw [if_neg hb']
    rw [e1, e2, key]

/-- The source's RSI value equals the spec-side formula value: the two
differ only in the divisor of the rolling means (the source divides the
last-14 window sums, which at exactly 14 samples include a spurious
leading zero, by 14; the spec divides the genuine pairwise gains and
losses by their count), and the ratio RS cancels that divisor. -/
theorem rsiLast_eq_specFormula (prices : List ℚ) (h : 14 ≤ prices.length) :
    rsiLast prices
      = rsiFromAvgs (mean (lastN 14 (pairGains prices)))
                    (mean (lastN 14 (pairLosses prices))) := by
  rcases eq_or_lt_of_le h with h14 | h15
  · -- exactly 14 samples: the rolled window is the whole gain series,
    -- whose head is the zero substituted for the diff's leading NaN
    have hg : (pairGains prices).length = 13 := by rw [pairGains_length]; omega
    have hl : (pairLosses prices).length = 13 := by rw [pairLosses_length]; omega
    have eg : lastN 14 ((0:ℚ) :: pairGains prices) = (0:ℚ) :: pairGains prices := by
      rw [lastN, List.length_cons, hg]
      simp
    have el : lastN 14 ((0:ℚ) :: pairLosses prices) = (0:ℚ) :: pairLosses prices := by
      rw [lastN, List.length_cons, hl]
      simp
    have eg2 : lastN 14 (pairGains prices) = pairGains prices := by
      rw [lastN, hg]
      simp
    have el2 : lastN 14 (pairLosses prices) = pairLosses prices := by
      rw [lastN, hl]
      simp
    rw [rsiLast, avgGain14, avgLoss14, eg, el, eg2, el2, mean, mean, hg, hl,
      List.sum_cons, zero_add, List.sum_cons, zero_add]
    exact_mod_cast rsiFromAvgs_rescale (pairGains prices).sum (pairLosses prices).sum
      14 13 (by norm_num) (by norm_num)
  · -- at least 15 samples: the substituted zero falls out of the window
    have hg : (pairGains prices).length = prices.length - 1 := pairGains_length prices
    have hl : (pairLosses prices).length = prices.length - 1 := pairLosses_length prices
    have eg : lastN 14 ((0:ℚ) :: pairGains prices) = lastN 14 (pairGains prices) := by
      rw [lastN, lastN, List.length_cons, hg,
        show prices.length - 1 + 1 - 14 = (prices.length - 1 - 14) + 1 by omega,
        List.drop_succ_cons]
    have el : lastN 14 ((0:ℚ) :: pairLosses prices) = lastN 14 (pairLosses prices) := by
      rw [lastN, lastN, List.length_cons, hl,
        show prices.length - 1 + 1 - 14 = (prices.length - 1 - 14) + 1 by omega,
        List.drop_succ_cons]
    have lg : (lastN 14 (pairGains prices)).length = 14 :=
      lastN_length 14 _ (by rw [hg]; omega)
    have ll : (lastN 14 (pairLosses prices)).length = 14 :=
      lastN_length 14 _ (by rw [hl]; omega)
    rw [rsiLast, avgGain14, avgLoss14, eg, el, mean, mean, lg, ll]
    norm_num

/-- Claim C5: the RSI is computed from pairwise gains max(delta, 0) and
losses max(-delta, 0), averaged over the last 14 values, combined as
RS = avgGain/avgLoss and RSI = 100 - 100/(1+RS), and is absent exactly
when the history holds fewer than 14 samples: the source computation
refines the spec formula. -/
theorem rsi_formula_refines (prices : List ℚ) :
    (calculate_available_indicators prices).RSI = rsiSpecFormula prices
    ∧ ((calculate_available_indicators prices).RSI = none ↔ prices.length < 14) := by
  constructor
  · simp only [calculate_available_indicators, rsiSpecFormula]
    split_ifs with h
    · rw [rsiLast_eq_specFormula prices h]
    · rfl
  · simp only [calculate_available_indicators]
    split_ifs with h <;> simp <;> omega

theorem zipWith_nonneg (f : ℚ → ℚ → ℚ) (hf : ∀ a b, 0 ≤ f a b) :
    ∀ (l₁ l₂ : List ℚ), ∀ x ∈ List.zipWith f l₁ l₂, 0 ≤ x := by
  intro l₁
  induction l₁ with
  | nil => intro l₂ x hx; simp at hx
  | cons a t ih =>
      intro l₂ x hx
      cases l₂ with
      | nil => simp at hx
      | cons b t2 =>
          rw [List.zipWith_cons_cons] at hx
          rcases List.mem_cons.mp hx with h | h
          · exact h ▸ hf a b
          · exact ih t2 x h

theorem avgGain14_nonneg (prices : List ℚ) : 0 ≤ avgGain14 prices := by
  rw [avgGain14]
  apply div_nonneg _ (by norm_num)
  apply List.sum_nonneg
  intro x hx
  have hx' : x ∈ (0:ℚ) :: pairGains prices := List.mem_of_mem_drop hx
  rcases List.mem_cons.mp hx' with h | h
  · exact le_of_eq h.symm
  · exact zipWith_nonneg _ (fun a b => le_max_right _ 0) prices prices.tail x h

theorem avgLoss14_nonneg (prices : List ℚ) : 0 ≤ avgLoss14 prices := by
  rw [avgLoss14]
  apply div_nonneg _ (by norm_num)
  apply List.sum_nonneg
  intro x hx
  have hx' : x ∈ (0:ℚ) :: pairLosses prices := List.mem_of_mem_drop hx
  rcases List.mem_cons.mp hx' with h | h
  · exact le_of_eq h.symm
  · exact zipWith_nonneg _ (fun a b => le_max_right _ 0) prices prices.tail x h

/-- Counterexample to claim C3: on fourteen constant samples the RSI is
"available" (its sample guard passes and the field is not `None`), yet
the computed value is `0/0 = nan` — not a well-defined real number in
[0, 100] — because the source never special-cases the zero
denominator. -/
theorem rsi_flat_window_nan :
    (calculate_available_indicators (List.replicate 14 (1:ℚ))).RSI = some PyFloat.nan
    ∧ (calculate_available_indicators (List.replicate 14 (1:ℚ))).RSI ≠ none
    ∧ isRealIn0100 ((calculate_available_indicators (List.replicate 14 (1:ℚ))).RSI)
        = false := by
  refine ⟨by decide, by decide, by decide⟩

/-- Amended claim C3: whenever RSI14 is available and its 14-window
average gain and average loss are not both zero, the value is a
well-defined rational in [0, 100]; a zero average loss with positive
average gain (e.g. a strictly increasing window) resolves to exactly
100 through the IEEE division (RS = inf), not to a fault; but when both
averages are zero the value is `nan`. -/
theorem rsi_range_policy (prices : List ℚ) (h : 14 ≤ prices.length) :
    (avgLoss14 prices ≠ 0 →
      ∃ q, (calculate_available_indicators prices).RSI = some (.num q)
        ∧ 0 ≤ q ∧ q ≤ 100)
    ∧ (avgLoss14 prices = 0 → avgGain14 prices ≠ 0 →
      (calculate_available_indicators prices).RSI = some (.num 100))
    ∧ (avgLoss14 prices = 0 → avgGain14 prices = 0 →
      (calculate_available_indicators prices).RSI = some PyFloat.nan) := by
  have hR : (calculate_available_indicators prices).RSI = some (rsiLast prices) := by
    simp only [calculate_available_indicators]
    rw [if_pos h]
  refine ⟨?_, ?_, ?_⟩
  · intro hne
    have hg0 : 0 ≤ avgGain14 prices := avgGain14_nonneg prices
    have hl0 : 0 < avgLoss14 prices :=
      lt_of_le_of_ne (avgLoss14_nonneg prices) (Ne.symm hne)
    have hrs0 : 0 ≤ avgGain14 prices / avgLoss14 prices := div_nonneg hg0 hl0.le
    have hone : (1:ℚ) + avgGain14 prices / avgLoss14 prices ≠ 0 := by
      have : (0:ℚ) < 1 + avgGain14 prices / avgLoss14 prices := by linarith
      exact this.ne'
    have hdiv : PyFloat.div (.num (avgGain14 prices)) (.num (avgLoss14 prices))
        = .num (avgGain14 prices / avgLoss14 prices) := by
      simp only [PyFloat.div]
      rw [if_neg hl0.ne']
    have hdiv2 : PyFloat.div (.num 100)
          (.num (1 + avgGain14 prices / avgLoss14 prices))
        = .num (100 / (1 + avgGain14 prices / avgLoss14 prices)) := by
      simp only [PyFloat.div]
      rw [if_neg hone]
    refine ⟨100 - 100 / (1 + avgGain14 prices / avgLoss14 prices), ?_, ?_, ?_⟩
    · rw [hR]
      simp only [rsiLast, rsiFromAvgs, hdiv, PyFloat.add, hdiv2, PyFloat.sub]
    · have hle : 100 / (1 + avgGain14 prices / avgLoss14 prices) ≤ 100 :=
        div_le_self (by norm_num) (by linarith)
      linarith
    · have hpos : 0 < 100 / (1 + avgGain14 prices / avgLoss14 prices) :=
        div_pos (by norm_num) (by linarith)
      linarith
  · intro h0 hgne
    have hgpos : 0 < avgGain14 prices :=
      lt_of_le_of_ne (avgGain14_nonneg prices) (Ne.symm hgne)
    rw [hR]
    simp only [rsiLast, rsiFromAvgs, h0]
    have hinf : PyFloat.div (.num (avgGain14 prices)) (.num 0) = .inf := by
      simp only [PyFloat.div, eq_self_iff_true, if_true]
      rw [if_pos hgpos]
    rw [hinf]
    simp only [PyFloat.add, PyFloat.div, PyFloat.sub]
    norm_num
  · intro h0 hg0
    rw [hR]
    simp only [rsiLast, rsiFromAvgs, h0, hg0]
    have hnan : PyFloat.div (.num 0) (.num 0) = .nan := by
      simp only [PyFloat.div, eq_self_iff_true, if_true]
      rw [if_neg (lt_irrefl 0), if_neg (lt_irrefl 0)]
    rw [hnan]
    rfl

/-- Witness for C3 (amended): a strictly increasing 15-price window has
zero average loss and positive average gain, and its RSI is exactly
100. -/
theorem rsi_range_policy_witness :
    avgLoss14 [(1:ℚ),2,3,4,5,6,7,8,9,10,11,12,13,14,15] = 0
    ∧ avgGain14 [(1:ℚ),2,3,4,5,6,7,8,9,10,11,12,13,14,15] ≠ 0
    ∧ (calculate_available_indicators [(1:ℚ),2,3,4,5,6,7,8,9,10,11,12,13,14,15]).RSI
        = some (.num 100) :=
  ⟨by decide, by decide,
   (rsi_range_policy [(1:ℚ),2,3,4,5,6,7,8,9,10,11,12,13,14,15] (by decide)).2.1
     (by decide) (by decide)⟩

/-- Counterexample to claim C4: with exactly ten samples the momentum
field is set (its guard `len >= 10` passes, so it is not `None` and
counts as "available"), yet pandas `pct_change(periods=10)` has no
price ten observations back, so the value is `nan` — not the claimed
percentage change, which does not exist for this history. -/
theorem momentum_at_ten_samples_nan :
    (calculate_available_indicators [(1:ℚ),1,1,1,1,1,1,1,1,1]).momentum
        = some PyFloat.nan
    ∧ (calculate_available_indicators [(1:ℚ),1,1,1,1,1,1,1,1,1]).momentum ≠ none
    ∧ isRealNum ((calculate_available_indicators [(1:ℚ),1,1,1,1,1,1,1,1,1]).momentum)
        = false := by
  refine ⟨by decide, by decide, by decide⟩

/-- Amended claim C4: momentum10 is absent below 10 samples; at exactly
10 samples it is set but equals `nan`; from 11 samples on (and a
nonzero reference price) it equals the percentage change of the current
price against the price 10 observations earlier, and when that
reference price is positive its sign matches the sign of
price_now − price_(now−10). -/
theorem momentum_availability (prices : List ℚ) :
    ((calculate_available_indicators prices).momentum = none ↔ prices.length < 10)
    ∧ (prices.length = 10 →
        (calculate_available_indicators prices).momentum = some PyFloat.nan)
    ∧ (11 ≤ prices.length → prices.getD (prices.length - 11) 0 ≠ 0 →
        (calculate_available_indicators prices).momentum
          = some (.num ((prices.getD (prices.length - 1) 0
              / prices.getD (prices.length - 11) 0 - 1) * 100)))
    ∧ (11 ≤ prices.length → 0 < prices.getD (prices.length - 11) 0 →
        ((0 < (prices.getD (prices.length - 1) 0
              / prices.getD (prices.length - 11) 0 - 1) * 100
          ↔ prices.getD (prices.length - 11) 0 < prices.getD (prices.length - 1) 0)
        ∧ ((prices.getD (prices.length - 1) 0
              / prices.getD (prices.length - 11) 0 - 1) * 100 < 0
          ↔ prices.getD (prices.length - 1) 0 < prices.getD (prices.length - 11) 0))) := by
  refine ⟨?_, ?_, ?_, ?_⟩
  · simp only [calculate_available_indicators]
    split_ifs with h <;> simp <;> omega
  · intro h10
    simp only [calculate_available_indicators]
    rw [if_pos (by omega)]
    simp only [momentumLast]
    rw [if_neg (by omega)]
  · intro h11 href
    simp only [calculate_available_indicators]
    rw [if_pos (by omega)]
    simp only [momentumLast]
    rw [if_pos h11]
    have e1 : PyFloat.div (.num (prices.getD (prices.length - 1) 0))
          (.num (prices.getD (prices.length - 11) 0))
        = .num (prices.getD (prices.length - 1) 0
            / prices.getD (prices.length - 11) 0) := by
      simp only [PyFloat.div]
      rw [if_neg href]
    rw [e1]
    simp only [PyFloat.sub, PyFloat.mul]
  · intro h11 hpos
    set x := prices.getD (prices.length - 1) 0 with hxdef
    set y := prices.getD (prices.length - 11) 0 with hydef
    have hyne : y ≠ 0 := hpos.ne'
    have key : (x / y - 1) * 100 = (x - y) * (100 / y) := by
      field_simp
    have hfac : 0 < 100 / y := div_pos (by norm_num) hpos
    rw [key]
    constructor
    · constructor
      · intro hm
        nlinarith
      · intro hm
        nlinarith
    · constructor
      · intro hm
        nlinarith
      · intro hm
        nlinarith

/-- Witness for C4 (amended): eleven samples, reference price 1 and
current price 2, give momentum exactly +100 and a positive sign
matching the positive price difference. -/
theorem momentum_availability_witness :
    (11 ≤ ([(1:ℚ),1,1,1,1,1,1,1,1,1,2] : List ℚ).length)
    ∧ (calculate_available_indicators [(1:ℚ),1,1,1,1,1,1,1,1,1,2]).momentum
        = some (.num 100) := by
  have h := (momentum_availability [(1:ℚ),1,1,1,1,1,1,1,1,1,2]).2.2.1
    (by decide) (by decide)
  refine ⟨by decide, ?_⟩
  rw [h]
  decide

end Signals
